import Mathlib

/-!
Verification of the SBOM scan pipeline (CDK stack `app.py`, the dashboard
generator `aws-inspector-dashboard.py` and the standalone analysis script
`sbom-analyzer.py`).

The Lambda handlers are shallowly embedded as pure Lean functions; external
calls (the Inspector scan service, S3, Step Functions) are passed in as
explicit arguments.  Python dicts with string keys appear as association
lists `List (String × Nat)` so that insertion order and the
`get`-with-default update of the source are kept faithfully.
-/

namespace SbomPipeline

/-- A vulnerability finding as consumed by `GetScanResultsLambda.handler`:
only the `severity` field matters there, and it may be absent. -/
structure Finding where
  severity : Option String
deriving Repr, DecidableEq

/-- The lookup `finding.get('severity', 'INFORMATIONAL')` from
`GetScanResultsLambda.handler` (app.py line 183). -/
def sevKeyOf (f : Finding) : String :=
  f.severity.getD "INFORMATIONAL"

/-- The initial `severity_counts` dict of `GetScanResultsLambda.handler`
(app.py lines 174-180), in insertion order. -/
def initCounts : List (String × Nat) :=
  [("CRITICAL", 0), ("HIGH", 0), ("MEDIUM", 0), ("LOW", 0), ("INFORMATIONAL", 0)]

/-- The update `severity_counts[severity] = severity_counts.get(severity, 0) + 1`
(app.py line 184): update in place when the key is present, else append
the key with count 1 (Python dicts preserve insertion order). -/
def bumpCount (counts : List (String × Nat)) (k : String) : List (String × Nat) :=
  if counts.any (fun p => p.1 == k) then
    counts.map (fun p => if p.1 == k then (p.1, p.2 + 1) else p)
  else
    counts ++ [(k, 1)]

/-- The `for finding in findings_response.get('findings', [])` loop of
`GetScanResultsLambda.handler` (app.py lines 182-184). -/
def countsAfter (fs : List Finding) : List (String × Nat) :=
  fs.foldl (fun c f => bumpCount c (sevKeyOf f)) initCounts

/-- The total `sum(severity_counts.values())` (app.py line 193). -/
def sumValues (c : List (String × Nat)) : Nat :=
  (c.map (fun p => p.2)).sum

/-- Dict lookup with default 0, used to state what a given severity key's
count is in the produced `findingCounts`. -/
def getCount (c : List (String × Nat)) (k : String) : Nat :=
  match c.find? (fun p => p.1 == k) with
  | some p => p.2
  | none => 0

/-- Event payload flowing between the state-machine stages: the fields of the
ScanHandle created by `InitiateSbomScanLambda.handler` (app.py lines 97-101). -/
structure ScanEvent where
  scanId : String
  scanName : String
  sbomUrl : String
deriving Repr, DecidableEq

/-- Output shape of `CheckScanStatusLambda.handler` (app.py lines 131-137). -/
structure CheckStatusResult where
  scanId : String
  scanName : String
  sbomUrl : String
  status : String
  isDone : Bool
deriving Repr, DecidableEq

/-- Handler `CheckScanStatusLambda.handler` (app.py lines 121-137): `status` is the
value `inspector.get_sbom_scan` returns for the event's scan id. -/
def checkScanStatusHandler (event : ScanEvent) (status : String) : CheckStatusResult :=
  { scanId := event.scanId
    scanName := event.scanName
    sbomUrl := event.sbomUrl
    status := status
    isDone := status != "IN_PROGRESS" }

/-- The `summary` dict built by `GetScanResultsLambda.handler`
(app.py lines 187-195). -/
structure ScanSummary where
  scanId : String
  scanName : String
  status : String
  completedAt : Option String
  findingCounts : List (String × Nat)
  totalFindings : Nat
  sbomUrl : String
deriving Repr, DecidableEq

/-- Result of `GetScanResultsLambda.handler`: the returned summary plus the
S3 keys the three `put_object` calls write (app.py lines 197-225). -/
structure GetResultsOutput where
  summary : ScanSummary
  writtenKeys : List String
deriving Repr, DecidableEq

/-- Handler `GetScanResultsLambda.handler` (app.py lines 154-225).  `scanStatus` and
`completedAt` are what `get_sbom_scan` returns, `findings` what
`list_findings` returns for the scan id. -/
def getScanResultsHandler (event : ScanEvent) (scanStatus : String)
    (completedAt : Option String) (findings : List Finding) : GetResultsOutput :=
  let counts := countsAfter findings
  { summary :=
      { scanId := event.scanId
        scanName := event.scanName
        status := scanStatus
        completedAt := completedAt
        findingCounts := counts
        totalFindings := sumValues counts
        sbomUrl := event.sbomUrl }
    writtenKeys :=
      ["scans/" ++ event.scanId ++ "/scan-details.json",
       "scans/" ++ event.scanId ++ "/findings.json",
       "scans/" ++ event.scanId ++ "/summary.json"] }

/-- The stages of the `SbomScanStateMachine` (app.py lines 236-266). -/
inductive Stage where
  | submitted
  | polling
  | waiting
  | finalizing
deriving Repr, DecidableEq

/-- The `IsScanComplete` choice state (app.py lines 262-264): when `$.isDone`
is true go to `GetScanResults` (Finalizing), otherwise to the wait state. -/
def choiceNext (r : CheckStatusResult) : Stage :=
  if r.isDone then Stage.finalizing else Stage.waiting

/-- The poll/wait loop of the state machine, driven by the sequence of status
values successive `get_sbom_scan` calls return.  Each list element feeds one
`CheckScanStatus` invocation; an exhausted list models the coarse wall-clock
timeout cutting the execution off mid-loop. -/
def pollLoop : List String → List Stage
  | [] => []
  | s :: rest =>
      Stage.polling ::
        (if s != "IN_PROGRESS" then [Stage.finalizing] else Stage.waiting :: pollLoop rest)

/-- Full stage trace of one execution (app.py lines 260-266): the workflow is
`initiate_scan_task.next(check_status_task.next(choice))`, so submission
happens exactly once at the start, then the poll loop runs. -/
def execTrace (statuses : List String) : List Stage :=
  Stage.submitted :: pollLoop statuses

/-- Python's `str.endswith`: is `suffix` a suffix of `s`. -/
def pyEndsWith (s suffix : String) : Bool :=
  suffix.data.isSuffixOf s.data

/-- SBOM format detection of `TriggerSbomScanLambda.handler`
(app.py lines 300-305): default `CYCLONEDX_1_4`; `.json` maps to
`CYCLONEDX_1_4`; `.xml` maps to `CYCLONEDX_1_4`. -/
def triggerDetectFormat (key : String) : String :=
  if pyEndsWith key ".json" then "CYCLONEDX_1_4"
  else if pyEndsWith key ".xml" then "CYCLONEDX_1_4"
  else "CYCLONEDX_1_4"

/-- SBOM format detection of `ListSbomsLambda.handler` (app.py lines 379-384),
textually identical to the trigger path's logic. -/
def listDetectFormat (key : String) : String :=
  if pyEndsWith key ".json" then "CYCLONEDX_1_4"
  else if pyEndsWith key ".xml" then "CYCLONEDX_1_4"
  else "CYCLONEDX_1_4"

/-- One S3 object listed by the paginator in `ListSbomsLambda.handler`. -/
structure S3Object where
  key : String
deriving Repr, DecidableEq

/-- The `start_execution` input built by `ListSbomsLambda.handler`
(app.py lines 387-394). -/
structure ExecInput where
  bucket : String
  key : String
  format : String
deriving Repr, DecidableEq

/-- Handler `ListSbomsLambda.handler` (app.py lines 364-402): iterate the listed
objects and call `start_execution` for each, counting the starts.  The loop
body has no try/except, so an exception raised by one `start_execution`
propagates out of the handler.  `startOk` says whether a given start call
succeeds.  The first component collects the execution inputs for which a
start was actually attempted; the second is `some count` when the loop
completes normally and `none` when an exception aborts it. -/
def listSbomsRun (bucket : String) (startOk : S3Object → Bool) :
    List S3Object → List ExecInput × Option Nat
  | [] => ([], some 0)
  | o :: rest =>
      let input : ExecInput := ⟨bucket, o.key, listDetectFormat o.key⟩
      if startOk o then
        let r := listSbomsRun bucket startOk rest
        (input :: r.1, r.2.map (fun n => n + 1))
      else
        ([input], none)

/-- Function `main` of `aws-inspector-dashboard.py` (lines 432-444): with no findings
print and return exit code 1 writing nothing, otherwise generate the
dashboard file and return 0.  Result is (exit code, files written). -/
def dashboardMain (findings : List Finding) (outputFile : String) :
    Nat × List String :=
  if findings.isEmpty then (1, [])
  else (0, [outputFile])

/-- A finding as consumed by `sbom-analyzer.py`: only the optional
`severity` field matters for the claims. -/
structure AFinding where
  severity : Option String
deriving Repr, DecidableEq

/-- The lookup `finding.get('severity', 'UNKNOWN')` (sbom-analyzer.py line 82). -/
def analyzerSeverityOf (f : AFinding) : String :=
  f.severity.getD "UNKNOWN"

/-- One severity label's row count in `df['severity'].value_counts()`
(sbom-analyzer.py line 101): the number of findings whose recorded severity
equals the label. -/
def analyzerSeverityCount (fs : List AFinding) (label : String) : Nat :=
  fs.countP (fun f => analyzerSeverityOf f == label)

/-- The report artifacts `sbom-analyzer.py` writes on the success path
(summary markdown, four charts, CSV, HTML report); timestamps elided. -/
def analyzerArtifacts : List String :=
  ["sbom_analysis_summary.md", "severity_distribution.png",
   "top_vulnerable_packages.png", "cvss_distribution.png",
   "fixable_vulnerabilities.png", "vulnerability_details.csv",
   "sbom_analysis_report.html"]

/-- Top level of `sbom-analyzer.py` (lines 64-404): `data` is `none` when
the loaded JSON has no `findings` key.  When `'findings' not in data or not
data['findings']` the script prints and calls `sys.exit(0)` (line 71),
having written no artifact; otherwise it writes its reports and the process
ends with exit code 0.  Result is (exit code, artifacts written). -/
def analyzerMain (data : Option (List AFinding)) : Nat × List String :=
  match data with
  | none => (0, [])
  | some [] => (0, [])
  | some (_ :: _) => (0, analyzerArtifacts)

/-! ### Helper lemmas about the severity-count dict -/

/-- No two entries of the counts dict share a key (Python dict invariant). -/
def keysNodup (c : List (String × Nat)) : Prop :=
  c.Pairwise (fun p q => p.1 ≠ q.1)

theorem sumValues_cons (p : String × Nat) (c : List (String × Nat)) :
    sumValues (p :: c) = p.2 + sumValues c := by
  simp [sumValues]

theorem map_bump_eq_self (c : List (String × Nat)) (k : String)
    (h : ∀ p ∈ c, p.1 ≠ k) :
    c.map (fun p => if p.1 == k then (p.1, p.2 + 1) else p) = c := by
  induction c with
  | nil => rfl
  | cons hd tl ih =>
    have h1 : (hd.1 == k) = false := by
      simpa using h hd (List.mem_cons_self _ _)
    simp only [List.map_cons, h1, Bool.false_eq_true, if_false]
    rw [ih (fun p hp => h p (List.mem_cons_of_mem _ hp))]

theorem keysNodup_bump (c : List (String × Nat)) (k : String) (h : keysNodup c) :
    keysNodup (bumpCount c k) := by
  unfold bumpCount
  split
  · -- in-place update keeps every key unchanged
    have hkeys : ∀ p : String × Nat,
        (if p.1 == k then (p.1, p.2 + 1) else p).1 = p.1 := by
      intro p; split <;> rfl
    unfold keysNodup at h ⊢
    refine (List.pairwise_map).mpr ?_
    refine h.imp ?_
    intro a b hab
    rw [hkeys a, hkeys b]
    exact hab
  · rename_i hnot
    unfold keysNodup at h ⊢
    rw [List.pairwise_append]
    refine ⟨h, List.pairwise_singleton _ _, ?_⟩
    intro a ha b hb
    simp only [List.mem_singleton] at hb
    subst hb
    intro hak
    simp only [List.any_eq_true, not_exists, not_and] at hnot
    exact absurd (by simpa using hak) (by simpa using hnot a ha)

theorem sumValues_mapBump (k : String) (c : List (String × Nat))
    (hnd : keysNodup c) (hany : c.any (fun p => p.1 == k) = true) :
    sumValues (c.map (fun p => if p.1 == k then (p.1, p.2 + 1) else p))
      = sumValues c + 1 := by
  induction c with
  | nil => simp at hany
  | cons hd tl ih =>
    have hnd' := List.pairwise_cons.mp hnd
    by_cases hk : hd.1 = k
    · have hmap : tl.map (fun p => if p.1 == k then (p.1, p.2 + 1) else p) = tl :=
        map_bump_eq_self tl k (fun p hp hpk => hnd'.1 p hp (hk.trans hpk.symm))
      have hbeq : (hd.1 == k) = true := by simpa using hk
      simp only [List.map_cons, hbeq, if_true, hmap, sumValues_cons]
      omega
    · have hbeq : (hd.1 == k) = false := by simpa using hk
      simp only [List.any_cons, hbeq, Bool.false_or] at hany
      simp only [List.map_cons, hbeq, Bool.false_eq_true, if_false, sumValues_cons,
        ih hnd'.2 hany]
      omega

theorem sumValues_bump (c : List (String × Nat)) (k : String) (h : keysNodup c) :
    sumValues (bumpCount c k) = sumValues c + 1 := by
  unfold bumpCount
  split
  · exact sumValues_mapBump k c h (by assumption)
  · simp [sumValues, List.map_append]

theorem find?_mapBump (c : List (String × Nat)) (kk k : String) :
    (c.map (fun p => if p.1 == kk then (p.1, p.2 + 1) else p)).find?
        (fun p => p.1 == k)
      = (c.find? (fun p => p.1 == k)).map
          (fun p => if p.1 == kk then (p.1, p.2 + 1) else p) := by
  induction c with
  | nil => rfl
  | cons hd tl ih =>
    have hfst : ((if hd.1 == kk then (hd.1, hd.2 + 1) else hd) : String × Nat).1
        = hd.1 := by
      split <;> rfl
    simp only [List.map_cons, List.find?_cons]
    rw [hfst]
    cases hk : (hd.1 == k) with
    | true => simp
    | false => simpa using ih

theorem getCount_bump (c : List (String × Nat)) (kk k : String) :
    getCount (bumpCount c kk) k = getCount c k + (if kk = k then 1 else 0) := by
  unfold bumpCount
  split
  · rename_i hany
    unfold getCount
    rw [find?_mapBump]
    rcases hfind : c.find? (fun p => p.1 == k) with _ | p
    · -- the key k is absent from c, so kk (present in c) differs from k
      have hkk : kk ≠ k := by
        intro hkkk
        subst hkkk
        rw [List.find?_eq_none] at hfind
        simp only [List.any_eq_true] at hany
        obtain ⟨p, hp, hpk⟩ := hany
        exact absurd hpk (by simpa using hfind p hp)
      rw [hfind]
      simp [hkk]
    · have hpk : p.1 = k := by
        have := List.find?_some hfind
        simpa using this
      rw [hfind]
      by_cases hkkk : kk = k
      · subst hkkk
        have hb : (p.1 == kk) = true := by simpa using hpk
        simp [hb, hpk]
      · have hnk : ¬p.1 = kk := by
          rw [hpk]; exact fun h => hkkk h.symm
        simp [hnk, hkkk]
  · rename_i hnone
    unfold getCount
    rw [List.find?_append]
    rcases hfind : c.find? (fun p => p.1 == k) with _ | p
    · rw [hfind]
      by_cases hkkk : kk = k
      · subst hkkk
        simp [List.find?]
      · have hb : (kk == k) = false := by simpa using hkkk
        simp [List.find?, hb, hkkk]
    · rw [hfind]
      -- k is present in c, while kk is not, so kk differs from k
      have hpk : p.1 = k := by
        have := List.find?_some hfind
        simpa using this
      have hkk : kk ≠ k := by
        intro hkkk
        subst hkkk
        simp only [List.any_eq_true, not_exists, not_and] at hnone
        exact absurd (by simpa using hpk)
          (by simpa using hnone p (List.mem_of_find?_eq_some hfind))
      simp [hkk]

theorem keysNodup_countsAfterFrom (fs : List Finding) :
    ∀ c : List (String × Nat), keysNodup c →
      keysNodup (fs.foldl (fun c f => bumpCount c (sevKeyOf f)) c) := by
  induction fs with
  | nil => intro c hc; simpa using hc
  | cons f fs ih =>
    intro c hc
    simpa [List.foldl_cons] using ih _ (keysNodup_bump c (sevKeyOf f) hc)

theorem keysNodup_initCounts : keysNodup initCounts := by
  unfold keysNodup initCounts
  decide

theorem sumValues_countsAfterFrom (fs : List Finding) :
    ∀ c : List (String × Nat), keysNodup c →
      sumValues (fs.foldl (fun c f => bumpCount c (sevKeyOf f)) c)
        = sumValues c + fs.length := by
  induction fs with
  | nil => intro c _; simp
  | cons f fs ih =>
    intro c hc
    rw [List.foldl_cons, ih _ (keysNodup_bump c (sevKeyOf f) hc),
      sumValues_bump c (sevKeyOf f) hc, List.length_cons]
    omega

theorem sumValues_countsAfter (fs : List Finding) :
    sumValues (countsAfter fs) = fs.length := by
  unfold countsAfter
  rw [sumValues_countsAfterFrom fs initCounts keysNodup_initCounts]
  simp [sumValues, initCounts]

theorem getCount_countsAfterFrom (fs : List Finding) (k : String) :
    ∀ c : List (String × Nat),
      getCount (fs.foldl (fun c f => bumpCount c (sevKeyOf f)) c) k
        = getCount c k + fs.countP (fun f => sevKeyOf f == k) := by
  induction fs with
  | nil => intro c; simp
  | cons f fs ih =>
    intro c
    rw [List.foldl_cons, ih, getCount_bump c (sevKeyOf f) k, List.countP_cons]
    by_cases h : sevKeyOf f = k
    · have hb : (sevKeyOf f == k) = true := by simpa using h
      simp [h, hb]
      omega
    · have hb : (sevKeyOf f == k) = false := by simpa using h
      simp [h, hb]

theorem getCount_initCounts (k : String) : getCount initCounts k = 0 := by
  unfold getCount
  rcases hfind : initCounts.find? (fun p => p.1 == k) with _ | p
  · rw [hfind]
  · have hmem := List.mem_of_find?_eq_some hfind
    rw [hfind]
    fin_cases hmem <;> rfl

theorem getCount_countsAfter (fs : List Finding) (k : String) :
    getCount (countsAfter fs) k = fs.countP (fun f => sevKeyOf f == k) := by
  unfold countsAfter
  rw [getCount_countsAfterFrom fs k initCounts, getCount_initCounts]
  omega

/-! ### Helper lemmas for the artifact key namespace -/

/-- Two appended suffixes that disagree on their last `n` characters can
never produce the same string. -/
theorem append_suffix_clash (x y s t : List Char) (n : Nat)
    (hn : n ≤ s.length) (hm : n ≤ t.length)
    (hne : s.reverse.take n ≠ t.reverse.take n) :
    x ++ s ≠ y ++ t := by
  intro h
  apply hne
  have h' : s.reverse ++ x.reverse = t.reverse ++ y.reverse := by
    rw [← List.reverse_append, ← List.reverse_append, h]
  have h1 : (s.reverse ++ x.reverse).take n = s.reverse.take n :=
    List.take_append_of_le_length (by simpa using hn)
  have h2 : (t.reverse ++ y.reverse).take n = t.reverse.take n :=
    List.take_append_of_le_length (by simpa using hm)
  rw [← h1, h', h2]

/-- The three artifact suffixes Finalizing writes under `scans/<scanId>/`
(app.py lines 202-223). -/
def artifactSuffixes : List String :=
  ["/scan-details.json", "/findings.json", "/summary.json"]

/-- An artifact key determines the scan identifier and the suffix that built
it: the key namespace is partitioned by scan identifier. -/
theorem artifact_key_inj (a b s t : String)
    (hs : s ∈ artifactSuffixes) (ht : t ∈ artifactSuffixes)
    (h : "scans/" ++ a ++ s = "scans/" ++ b ++ t) : a = b ∧ s = t := by
  have hd : ("scans/".data ++ a.data) ++ s.data
      = ("scans/".data ++ b.data) ++ t.data := by
    have h2 := congrArg String.data h
    simpa using h2
  rw [List.append_assoc, List.append_assoc] at hd
  have hd' : a.data ++ s.data = b.data ++ t.data := List.append_cancel_left hd
  have hstring : a.data = b.data ∧ s.data = t.data → a = b ∧ s = t :=
    fun hp => ⟨String.ext hp.1, String.ext hp.2⟩
  fin_cases hs <;> fin_cases ht <;>
    first
      | exact hstring (List.append_inj' hd' (by decide))
      | exact absurd hd'
          (append_suffix_clash _ _ _ _ 13 (by decide) (by decide) (by decide))

/-! ### Helper lemmas for the state-machine trace -/

/-- Repeated rounds (n of them) of the Polling-then-Waiting part of the loop. -/
def pollCycles : Nat → List Stage
  | 0 => []
  | n + 1 => Stage.polling :: Stage.waiting :: pollCycles n

theorem pollLoop_shape (pre : List String) (s : String) (rest : List String)
    (hpre : ∀ x ∈ pre, x = "IN_PROGRESS") (hs : s ≠ "IN_PROGRESS") :
    pollLoop (pre ++ s :: rest)
      = pollCycles pre.length ++ [Stage.polling, Stage.finalizing] := by
  induction pre with
  | nil =>
    have hb : (s != "IN_PROGRESS") = true := by simpa using hs
    simp [pollLoop, hb, pollCycles]
  | cons x pre ih =>
    have hx : x = "IN_PROGRESS" := hpre x (List.mem_cons_self _ _)
    have hb : (x != "IN_PROGRESS") = false := by simp [hx]
    simp only [List.cons_append, pollLoop, hb, Bool.false_eq_true, if_false,
      List.length_cons, pollCycles, List.append_eq]
    rw [ih (fun y hy => hpre y (List.mem_cons_of_mem _ hy))]

theorem pollLoop_count_submitted (l : List String) :
    (pollLoop l).count Stage.submitted = 0 := by
  induction l with
  | nil => rfl
  | cons s rest ih =>
    unfold pollLoop
    by_cases h : (s != "IN_PROGRESS") = true
    · simp [h, List.count_cons]
    · simp [h, List.count_cons, ih]

/-! ### Helper lemmas for the periodic dispatcher -/

theorem listSbomsRun_attempts (bucket : String) (startOk : S3Object → Bool)
    (objs : List S3Object) :
    (listSbomsRun bucket startOk objs).1
      = ((objs.takeWhile startOk) ++ (objs.dropWhile startOk).take 1).map
          (fun o => ⟨bucket, o.key, listDetectFormat o.key⟩) := by
  induction objs with
  | nil => rfl
  | cons o rest ih =>
    by_cases h : startOk o
    · simp [listSbomsRun, h, List.takeWhile_cons, List.dropWhile_cons, ih]
    · simp [listSbomsRun, h, List.takeWhile_cons, List.dropWhile_cons]

theorem listSbomsRun_all_ok (bucket : String) (startOk : S3Object → Bool)
    (objs : List S3Object) (h : ∀ o ∈ objs, startOk o) :
    listSbomsRun bucket startOk objs
      = (objs.map (fun o => ⟨bucket, o.key, listDetectFormat o.key⟩),
         some objs.length) := by
  induction objs with
  | nil => rfl
  | cons o rest ih =>
    have ho : startOk o := h o (List.mem_cons_self _ _)
    simp [listSbomsRun, ho, ih (fun y hy => h y (List.mem_cons_of_mem _ hy))]

/-! ### Claim theorems -/

/-- The Scenario A findings collection: three findings with severity HIGH,
one with severity CRITICAL, and one with no severity field. -/
def scenarioAFindings : List Finding :=
  [⟨some "HIGH"⟩, ⟨some "HIGH"⟩, ⟨some "HIGH"⟩, ⟨some "CRITICAL"⟩, ⟨none⟩]

/-- C1: for every findings collection given to the Finalizing stage
(`GetScanResultsLambda.handler`), the produced summary satisfies
`sum(findingCounts.values()) == totalFindings`, the total equals the number
of findings, and every finding with an absent severity is counted under
INFORMATIONAL (the INFORMATIONAL count is exactly the number of findings
whose severity defaults to INFORMATIONAL); on Scenario A the counts are
CRITICAL 1, HIGH 3, MEDIUM 0, LOW 0, INFORMATIONAL 1 with total 5. -/
theorem finalizing_summary_counts :
    (∀ (event : ScanEvent) (st : String) (ca : Option String) (fs : List Finding),
      sumValues (getScanResultsHandler event st ca fs).summary.findingCounts
          = (getScanResultsHandler event st ca fs).summary.totalFindings
      ∧ (getScanResultsHandler event st ca fs).summary.totalFindings = fs.length
      ∧ getCount (getScanResultsHandler event st ca fs).summary.findingCounts
            "INFORMATIONAL"
          = fs.countP
              (fun f => f.severity.getD "INFORMATIONAL" == "INFORMATIONAL"))
    ∧ (getScanResultsHandler ⟨"scan-1", "name-1", "url-1"⟩ "SUCCEEDED" none
          scenarioAFindings).summary.findingCounts
        = [("CRITICAL", 1), ("HIGH", 3), ("MEDIUM", 0), ("LOW", 0),
           ("INFORMATIONAL", 1)]
    ∧ (getScanResultsHandler ⟨"scan-1", "name-1", "url-1"⟩ "SUCCEEDED" none
          scenarioAFindings).summary.totalFindings = 5 := by
  refine ⟨fun event st ca fs => ⟨rfl, ?_, ?_⟩, by decide, by decide⟩
  · exact sumValues_countsAfter fs
  · exact getCount_countsAfter fs "INFORMATIONAL"

/-- C2: the `IsScanComplete` choice after `CheckScanStatus` goes to the wait
state exactly when the reported status is IN_PROGRESS, and any other status,
including failure statuses, goes straight to Finalizing. -/
theorem polling_branch_iff (event : ScanEvent) (status : String) :
    (choiceNext (checkScanStatusHandler event status) = Stage.waiting
      ↔ status = "IN_PROGRESS")
    ∧ (status ≠ "IN_PROGRESS" →
        choiceNext (checkScanStatusHandler event status) = Stage.finalizing) := by
  by_cases h : status = "IN_PROGRESS" <;>
    simp [choiceNext, checkScanStatusHandler, h, bne_iff_ne]

/-- Witness for `polling_branch_iff`: a FAILED status is treated as done and
proceeds to Finalizing. -/
theorem polling_branch_iff_witness :
    choiceNext (checkScanStatusHandler ⟨"scan-1", "name-1", "url-1"⟩ "FAILED")
      = Stage.finalizing :=
  (polling_branch_iff ⟨"scan-1", "name-1", "url-1"⟩ "FAILED").2 (by decide)

/-- C3: the ScanHandle fields (scanId, scanName, sbomUrl) pass through
`CheckScanStatus` and into the Finalizing summary unchanged, and every
execution trace contains the Submitted stage exactly once. -/
theorem scan_handle_stable :
    (∀ (event : ScanEvent) (status : String),
      (checkScanStatusHandler event status).scanId = event.scanId
      ∧ (checkScanStatusHandler event status).scanName = event.scanName
      ∧ (checkScanStatusHandler event status).sbomUrl = event.sbomUrl)
    ∧ (∀ (event : ScanEvent) (st : String) (ca : Option String)
        (fs : List Finding),
      (getScanResultsHandler event st ca fs).summary.scanId = event.scanId
      ∧ (getScanResultsHandler event st ca fs).summary.scanName = event.scanName
      ∧ (getScanResultsHandler event st ca fs).summary.sbomUrl = event.sbomUrl)
    ∧ ∀ statuses : List String,
        (execTrace statuses).count Stage.submitted = 1 := by
  refine ⟨fun _ _ => ⟨rfl, rfl, rfl⟩, fun _ _ _ _ => ⟨rfl, rfl, rfl⟩, ?_⟩
  intro statuses
  unfold execTrace
  simp [List.count_cons, pollLoop_count_submitted]

/-- C4 counterexample: the standalone analysis script, on a source yielding
zero findings, exits with status 0, not a non-zero status (it does write no
artifact).  This refutes the claim that every reporting tool exits non-zero
in that situation. -/
theorem analyzer_empty_exit_not_nonzero :
    (analyzerMain (some [])).1 = 0
    ∧ ¬(analyzerMain (some [])).1 ≠ 0
    ∧ (analyzerMain (some [])).2 = [] := by
  refine ⟨rfl, ?_, rfl⟩
  intro h
  exact h rfl

/-- C4 amended: with zero findings the dashboard generator exits with the
non-zero status 1 and writes nothing, while the standalone analysis script
also writes no output artifact but exits with status 0. -/
theorem empty_findings_behavior (outputFile : String) :
    dashboardMain [] outputFile = (1, [])
    ∧ analyzerMain none = (0, [])
    ∧ analyzerMain (some []) = (0, []) :=
  ⟨rfl, rfl, rfl⟩

/-- C5 counterexample: with two listed objects where starting the execution
for the first one fails, the periodic dispatcher attempts only the first
start; the remaining object is never attempted, so a failure does abort the
batch. -/
theorem list_sboms_failure_aborts_batch :
    (listSbomsRun "bucket" (fun o => o.key != "sboms/a.json")
        [⟨"sboms/a.json"⟩, ⟨"sboms/b.json"⟩]).1
      = [⟨"bucket", "sboms/a.json", "CYCLONEDX_1_4"⟩]
    ∧ (⟨"bucket", "sboms/b.json", "CYCLONEDX_1_4"⟩ : ExecInput)
        ∉ (listSbomsRun "bucket" (fun o => o.key != "sboms/a.json")
            [⟨"sboms/a.json"⟩, ⟨"sboms/b.json"⟩]).1
    ∧ (listSbomsRun "bucket" (fun o => o.key != "sboms/a.json")
        [⟨"sboms/a.json"⟩, ⟨"sboms/b.json"⟩]).2 = none := by
  refine ⟨by decide, by decide, by decide⟩

/-- C5 amended: in the periodic path a failure while starting one execution
aborts the batch (the loop has no per-object exception handling): the
attempted starts are exactly the leading objects whose starts succeed plus
the single first failing object, and the handler completes normally only
when every start succeeds, in which case every listed object is attempted. -/
theorem list_sboms_abort_semantics (bucket : String)
    (startOk : S3Object → Bool) (objs : List S3Object) :
    (listSbomsRun bucket startOk objs).1
      = ((objs.takeWhile startOk) ++ (objs.dropWhile startOk).take 1).map
          (fun o => ⟨bucket, o.key, listDetectFormat o.key⟩)
    ∧ ((∀ o ∈ objs, startOk o) →
        (listSbomsRun bucket startOk objs).1
            = objs.map (fun o => ⟨bucket, o.key, listDetectFormat o.key⟩)
        ∧ (listSbomsRun bucket startOk objs).2 = some objs.length) := by
  refine ⟨listSbomsRun_attempts bucket startOk objs, fun h => ?_⟩
  rw [listSbomsRun_all_ok bucket startOk objs h]
  exact ⟨rfl, rfl⟩

/-- Witness for `list_sboms_abort_semantics` on a two-object batch whose
starts all succeed. -/
theorem list_sboms_abort_semantics_witness :
    (listSbomsRun "bucket" (fun _ => true)
        [⟨"sboms/a.json"⟩, ⟨"sboms/b.json"⟩]).1
      = [⟨"bucket", "sboms/a.json", "CYCLONEDX_1_4"⟩,
         ⟨"bucket", "sboms/b.json", "CYCLONEDX_1_4"⟩]
    ∧ (listSbomsRun "bucket" (fun _ => true)
        [⟨"sboms/a.json"⟩, ⟨"sboms/b.json"⟩]).2 = some 2 := by
  have h := (list_sboms_abort_semantics "bucket" (fun _ => true)
    [⟨"sboms/a.json"⟩, ⟨"sboms/b.json"⟩]).2 (fun _ _ => rfl)
  refine ⟨?_, h.2⟩
  rw [h.1]
  decide

/-- C6: both the event-driven and the periodic dispatcher place the constant
format `CYCLONEDX_1_4` in the ScanRequest regardless of the object key's
extension: format detection is a no-op constant function. -/
theorem detect_format_constant (key : String) :
    triggerDetectFormat key = "CYCLONEDX_1_4"
    ∧ listDetectFormat key = "CYCLONEDX_1_4" := by
  constructor <;> simp [triggerDetectFormat, listDetectFormat]

/-- C7: a periodic tick over N listed objects starts exactly N executions,
one per listed object, with no deduplication: the handler consults no record
of prior scans, so the started executions are exactly the per-object inputs
whatever was scanned before. -/
theorem daily_tick_no_dedup (bucket : String) (objs : List S3Object) :
    (listSbomsRun bucket (fun _ => true) objs).1
        = objs.map (fun o => ⟨bucket, o.key, listDetectFormat o.key⟩)
    ∧ (listSbomsRun bucket (fun _ => true) objs).1.length = objs.length
    ∧ (listSbomsRun bucket (fun _ => true) objs).2 = some objs.length := by
  have h := listSbomsRun_all_ok bucket (fun _ => true) objs (fun _ _ => rfl)
  rw [h]
  exact ⟨rfl, by simp, rfl⟩

/-- C8: Finalizing writes exactly the three keys
`scans/<scanId>/scan-details.json`, `scans/<scanId>/findings.json` and
`scans/<scanId>/summary.json` for its own scan identifier, and for two
distinct scan identifiers the written key sets are disjoint. -/
theorem artifact_keys_partition (e₁ e₂ : ScanEvent) (st₁ st₂ : String)
    (ca₁ ca₂ : Option String) (fs₁ fs₂ : List Finding)
    (hne : e₁.scanId ≠ e₂.scanId) :
    (getScanResultsHandler e₁ st₁ ca₁ fs₁).writtenKeys
        = ["scans/" ++ e₁.scanId ++ "/scan-details.json",
           "scans/" ++ e₁.scanId ++ "/findings.json",
           "scans/" ++ e₁.scanId ++ "/summary.json"]
    ∧ ∀ k ∈ (getScanResultsHandler e₁ st₁ ca₁ fs₁).writtenKeys,
        k ∉ (getScanResultsHandler e₂ st₂ ca₂ fs₂).writtenKeys := by
  refine ⟨rfl, ?_⟩
  intro k hk₁ hk₂
  simp only [getScanResultsHandler, List.mem_cons, List.not_mem_nil,
    or_false] at hk₁ hk₂
  have key_ne : ∀ s t : String, s ∈ artifactSuffixes → t ∈ artifactSuffixes →
      "scans/" ++ e₁.scanId ++ s ≠ "scans/" ++ e₂.scanId ++ t := by
    intro s t hs ht h
    exact hne (artifact_key_inj e₁.scanId e₂.scanId s t hs ht h).1
  rcases hk₁ with h₁ | h₁ | h₁ <;> rcases hk₂ with h₂ | h₂ | h₂ <;>
    exact key_ne _ _ (by decide) (by decide) (h₁ ▸ h₂)

/-- Witness for `artifact_keys_partition` at two concrete distinct scan
identifiers. -/
theorem artifact_keys_partition_witness :
    (getScanResultsHandler ⟨"scan-1", "n1", "u1"⟩ "SUCCEEDED" none []).writtenKeys
        = ["scans/scan-1/scan-details.json", "scans/scan-1/findings.json",
           "scans/scan-1/summary.json"]
    ∧ ∀ k ∈ (getScanResultsHandler ⟨"scan-1", "n1", "u1"⟩ "SUCCEEDED" none
          []).writtenKeys,
        k ∉ (getScanResultsHandler ⟨"scan-2", "n2", "u2"⟩ "SUCCEEDED" none
          []).writtenKeys := by
  have h := artifact_keys_partition ⟨"scan-1", "n1", "u1"⟩ ⟨"scan-2", "n2", "u2"⟩
    "SUCCEEDED" "SUCCEEDED" none none [] [] (by decide)
  exact ⟨h.1, h.2⟩

/-- C9: on the status sequence [IN_PROGRESS, IN_PROGRESS, SUCCEEDED] the
orchestrator performs exactly 2 Waiting-then-Polling cycles before entering
Finalizing, and in general the stages occur strictly in the order
Submitted, Polling, (Waiting, Polling) repeated, Finalizing. -/
theorem orchestrator_stage_order :
    (execTrace ["IN_PROGRESS", "IN_PROGRESS", "SUCCEEDED"]
        = [Stage.submitted, Stage.polling, Stage.waiting, Stage.polling,
           Stage.waiting, Stage.polling, Stage.finalizing]
      ∧ (execTrace ["IN_PROGRESS", "IN_PROGRESS", "SUCCEEDED"]).count
            Stage.waiting = 2)
    ∧ ∀ (pre : List String) (s : String) (rest : List String),
        (∀ x ∈ pre, x = "IN_PROGRESS") → s ≠ "IN_PROGRESS" →
        execTrace (pre ++ s :: rest)
          = Stage.submitted ::
              (pollCycles pre.length ++ [Stage.polling, Stage.finalizing]) := by
  refine ⟨⟨by decide, by decide⟩, ?_⟩
  intro pre s rest hpre hs
  unfold execTrace
  rw [pollLoop_shape pre s rest hpre hs]

/-- Witness for `orchestrator_stage_order` at one IN_PROGRESS poll followed
by a SUCCEEDED poll. -/
theorem orchestrator_stage_order_witness :
    execTrace (["IN_PROGRESS"] ++ "SUCCEEDED" :: [])
      = Stage.submitted ::
          (pollCycles (["IN_PROGRESS"] : List String).length
            ++ [Stage.polling, Stage.finalizing]) :=
  orchestrator_stage_order.2 ["IN_PROGRESS"] "SUCCEEDED" []
    (by intro x hx; simpa using hx) (by decide)

/-- C10: in the standalone analysis script a finding with an absent severity
is recorded as UNKNOWN, counted under the UNKNOWN label of the severity
distribution, and UNKNOWN differs from the INFORMATIONAL default the
orchestrator's Finalizing stage applies to the same finding. -/
theorem analyzer_unknown_default (fs : List AFinding) (f : AFinding)
    (hf : f.severity = none) :
    analyzerSeverityOf f = "UNKNOWN"
    ∧ analyzerSeverityOf f ≠ "INFORMATIONAL"
    ∧ analyzerSeverityCount (f :: fs) "UNKNOWN"
        = analyzerSeverityCount fs "UNKNOWN" + 1
    ∧ sevKeyOf ⟨f.severity⟩ = "INFORMATIONAL" := by
  have h1 : analyzerSeverityOf f = "UNKNOWN" := by
    simp [analyzerSeverityOf, hf]
  refine ⟨h1, by rw [h1]; decide, ?_, by simp [sevKeyOf, hf]⟩
  unfold analyzerSeverityCount
  rw [List.countP_cons]
  simp [h1]

/-- Witness for `analyzer_unknown_default` at a singleton list and a finding
with no severity field. -/
theorem analyzer_unknown_default_witness :
    analyzerSeverityOf ⟨none⟩ = "UNKNOWN"
    ∧ analyzerSeverityOf ⟨none⟩ ≠ "INFORMATIONAL"
    ∧ analyzerSeverityCount [⟨none⟩, ⟨some "HIGH"⟩] "UNKNOWN"
        = analyzerSeverityCount [⟨some "HIGH"⟩] "UNKNOWN" + 1
    ∧ sevKeyOf ⟨(⟨none⟩ : AFinding).severity⟩ = "INFORMATIONAL" :=
  analyzer_unknown_default [⟨some "HIGH"⟩] ⟨none⟩ rfl

end SbomPipeline
